import Mathlib

/-!
Verification development for the cross-chain-wormhole repository.

The file shallowly embeds the orchestration code of the repository:

* `retryLoop` / `executeWithRetry` — the bounded-retry wrapper with
  exponential backoff (`executeWithRetry` in `src/unnamed/part_001`,
  lines 113–130);
* `tokenTransfer` / `executeCrossChainTransfer` — the three-phase bridge
  transfer pipeline (`src/unnamed/part_001`, lines 65–110 and 397–451);
* `executeStaking` / `executeUnstake` — the staking / unstaking operation
  sequencers (`src/unnamed/part_001`, lines 133–233 and 292–394);
* `crossChainStakeRejects` — the amount validation of the
  `POST /api/cross-chain-stake` handler (`src/src/server.ts`, lines 77–91),
  together with a model of JavaScript `parseFloat`;
* `stakeStep` / `unstakeStep` — the per-user position semantics of the
  `CrossChainStaking` Solidity contract (`src/unnamed/part_002`).

Remote collaborators (bridge, RPC provider, contracts) are modelled as
environments supplying the outcome of each remote call; the sequential
control flow, the checks and the arithmetic are translated from the source.
-/

namespace CCW

/-- Trace of one run of the retry wrapper: the final outcome (`Except.error`
carries the thrown value; the recorded last error is `none` when no attempt
ever ran, mirroring `throw lastError` with `lastError` still `undefined`),
the number of invocations of the wrapped operation, and the list of backoff
waits (in milliseconds, exact rationals) performed between attempts. -/
structure RetryTrace (ε α : Type) where
  result : Except (Option ε) α
  calls : Nat
  waits : List ℚ

/-- Model of `executeWithRetry` (src/unnamed/part_001, lines 113–130).
`fn j` is the outcome of the (j+1)-st invocation of the wrapped closure.
`r` counts the loop iterations still available (`maxRetries - i`), `i` is the
loop counter, `d` the current value of the mutable `delay` variable and
`last` the current `lastError`.  On a failed attempt with at least one
iteration left (`i < maxRetries - 1` in the source, i.e. `0 < r` here) the
code waits `d` milliseconds and then updates
`delay = Math.min(delay * 1.5, 15000)`; on the last failed attempt it
neither waits nor updates, and the loop ends with `throw lastError`.
All delay values reached from the call sites (initial delay 3000) are exactly
representable IEEE doubles, so exact rational arithmetic models the source. -/
def retryLoop (fn : Nat → Except ε α) : Nat → Nat → ℚ → Option ε → RetryTrace ε α
  | 0, _, _, last => ⟨Except.error last, 0, []⟩
  | r + 1, i, d, _ =>
    match fn i with
    | Except.ok a => ⟨Except.ok a, 1, []⟩
    | Except.error e =>
      if 0 < r then
        let t := retryLoop fn r (i + 1) (min (d * (3 / 2)) 15000) (some e)
        ⟨t.result, t.calls + 1, d :: t.waits⟩
      else
        let t := retryLoop fn r (i + 1) d (some e)
        ⟨t.result, t.calls + 1, t.waits⟩

/-- `executeWithRetry(fn, maxRetries, delay)`; every call site in the
repository uses the default arguments `maxRetries = 5`, `delay = 3000`. -/
def executeWithRetry (fn : Nat → Except ε α) (maxRetries : Nat) (delay : ℚ) :
    RetryTrace ε α :=
  retryLoop fn maxRetries 0 delay none

theorem retryLoop_allFail {ε : Type} (α : Type) (errs : Nat → ε) :
    ∀ (r i : Nat) (d : ℚ) (last : Option ε),
      (retryLoop (fun j => (Except.error (errs j) : Except ε α)) r i d last).calls = r ∧
      (retryLoop (fun j => (Except.error (errs j) : Except ε α)) r i d last).result =
        Except.error (if r = 0 then last else some (errs (i + r - 1))) := by
  intro r
  induction r with
  | zero => intro i d last; simp [retryLoop]
  | succ r ih =>
    intro i d last
    by_cases hr : 0 < r
    · have h := ih (i + 1) (min (d * (3 / 2)) 15000) (some (errs i))
      simp only [retryLoop, if_pos hr]
      refine ⟨by simpa using h.1, ?_⟩
      have hr0 : r ≠ 0 := Nat.pos_iff_ne_zero.mp hr
      simp only [h.2, if_neg hr0]
      have : i + 1 + r - 1 = i + (r + 1) - 1 := by omega
      simp [this]
    · have hr0 : r = 0 := by omega
      subst hr0
      simp [retryLoop]

/-- Claim C2: for every retry policy with `maxAttempts = n` (`n ≥ 1`), running
`executeWithRetry` on an operation that fails on every attempt invokes the
operation exactly `n` times and then fails carrying the most recent
underlying error (the error of the `n`-th attempt) as the thrown value. -/
theorem executeWithRetry_exhausts_with_last_error {ε α : Type}
    (n : Nat) (errs : Nat → ε) (d : ℚ) (h : 1 ≤ n) :
    (executeWithRetry (fun j => (Except.error (errs j) : Except ε α)) n d).calls = n ∧
    (executeWithRetry (fun j => (Except.error (errs j) : Except ε α)) n d).result =
      Except.error (some (errs (n - 1))) := by
  have h1 := retryLoop_allFail α errs n 0 d none
  refine ⟨h1.1, ?_⟩
  rw [executeWithRetry, h1.2, if_neg (by omega)]
  simp

/-- Witness for claim C2 at `n = 3`: three invocations, failure carries the
error of the third attempt. -/
theorem executeWithRetry_exhausts_with_last_error_witness :
    (executeWithRetry (fun j => (Except.error j : Except Nat Nat)) 3 3000).calls = 3 ∧
    (executeWithRetry (fun j => (Except.error j : Except Nat Nat)) 3 3000).result =
      Except.error (some 2) :=
  executeWithRetry_exhausts_with_last_error 3 (fun j => j) 3000 (by decide)

/-- Claim C6: in every run of the retry executor, the wait sequence starts at
the initial delay, each next delay is the previous one multiplied by 1.5 and
capped at 15000 ms, the sequence is non-decreasing, and every wait is bounded
by the 15000 ms cap.  The hypotheses `0 ≤ d ≤ 15000` hold at every call site
(all use the default initial delay of 3000 ms). -/
theorem retry_backoff_monotone_bounded {ε α : Type} (fn : Nat → Except ε α) :
    ∀ (n i : Nat) (d : ℚ) (last : Option ε), 0 ≤ d → d ≤ 15000 →
      ((retryLoop fn n i d last).waits ≠ [] →
        (retryLoop fn n i d last).waits.head? = some d) ∧
      List.Chain' (fun a b => b = min (a * (3 / 2)) 15000) (retryLoop fn n i d last).waits ∧
      List.Chain' (fun a b => a ≤ b) (retryLoop fn n i d last).waits ∧
      ∀ x ∈ (retryLoop fn n i d last).waits, x ≤ 15000 := by
  intro n
  induction n with
  | zero => intro i d last h0 h1; simp [retryLoop]
  | succ r ih =>
    intro i d last h0 h1
    match hfn : fn i with
    | Except.ok a => simp [retryLoop, hfn]
    | Except.error e =>
      by_cases hr : 0 < r
      · have hd0 : (0 : ℚ) ≤ min (d * (3 / 2)) 15000 := le_min (by nlinarith) (by norm_num)
        have hd1 : min (d * (3 / 2)) 15000 ≤ 15000 := min_le_right _ _
        have h := ih (i + 1) (min (d * (3 / 2)) 15000) (some e) hd0 hd1
        simp only [retryLoop, hfn, if_pos hr]
        refine ⟨fun _ => rfl, ?_, ?_, ?_⟩
        · rw [List.chain'_cons']
          refine ⟨fun y hy => ?_, h.2.1⟩
          have hne : (retryLoop fn r (i + 1) (min (d * (3 / 2)) 15000) (some e)).waits ≠ [] := by
            intro h2
            rw [h2] at hy
            simp at hy
          rw [h.1 hne, Option.mem_def] at hy
          exact (Option.some_inj.mp hy).symm
        · rw [List.chain'_cons']
          refine ⟨fun y hy => ?_, h.2.2.1⟩
          have hne : (retryLoop fn r (i + 1) (min (d * (3 / 2)) 15000) (some e)).waits ≠ [] := by
            intro h2
            rw [h2] at hy
            simp at hy
          rw [h.1 hne, Option.mem_def] at hy
          rw [← Option.some_inj.mp hy]
          exact le_min (by nlinarith) h1
        · intro x hx
          rcases List.mem_cons.mp hx with hx | hx
          · exact hx ▸ h1
          · exact h.2.2.2 x hx
      · have hr0 : r = 0 := by omega
        subst hr0
        simp [retryLoop, hfn]

/-- Witness for claim C6 at the default call-site parameters (three attempts,
initial delay 3000 ms). -/
theorem retry_backoff_monotone_bounded_witness :
    (((retryLoop (fun j => (Except.error j : Except Nat Nat)) 3 0 3000 none).waits ≠ [] →
      (retryLoop (fun j => (Except.error j : Except Nat Nat)) 3 0 3000 none).waits.head? =
        some 3000) ∧
    List.Chain' (fun a b => b = min (a * (3 / 2)) 15000)
      (retryLoop (fun j => (Except.error j : Except Nat Nat)) 3 0 3000 none).waits ∧
    List.Chain' (fun a b => a ≤ b)
      (retryLoop (fun j => (Except.error j : Except Nat Nat)) 3 0 3000 none).waits ∧
    ∀ x ∈ (retryLoop (fun j => (Except.error j : Except Nat Nat)) 3 0 3000 none).waits,
      x ≤ 15000) :=
  retry_backoff_monotone_bounded (fun j => (Except.error j : Except Nat Nat)) 3 0 3000 none
    (by norm_num) (by norm_num)

/-- Helper for the JS `String.prototype.includes` model: does the pattern
occur at the very start of the text? -/
def listStartsWith : List Char → List Char → Bool
  | [], _ => true
  | _ :: _, [] => false
  | p :: ps, c :: cs => p == c && listStartsWith ps cs

/-- Does the pattern occur contiguously anywhere in the text? -/
def listContainsAt (pat : List Char) : List Char → Bool
  | [] => List.isEmpty pat
  | c :: cs => listStartsWith pat (c :: cs) || listContainsAt pat cs

/-- Model of JavaScript `hay.includes(pat)` on strings; used for the source's
`error.toString().includes("transfer already completed")` test. -/
def jsIncludes (hay pat : String) : Bool :=
  listContainsAt pat.toList hay.toList

/-- Environment for one `tokenTransfer` run: `automatic` is
`xfer.transfer.automatic` (set from `route.automatic`), `quoteDestAmount`
models `quote.destinationToken.amount` (a signed integer amount), and each
`Except` field is the outcome of the corresponding awaited bridge call
(`initiateTransfer`, `fetchAttestation(60_000)`, `completeTransfer`), errors
carrying the string conversion of the thrown value. -/
structure BridgeEnv where
  automatic : Bool
  quoteDestAmount : ℤ
  initiateResult : Except String (List String)
  attestResult : Except String (List String)
  completeResult : Except String (List String)

/-- The bridge calls `tokenTransfer` submits, in submission order. -/
inductive BridgeStep where
  | initiateCall
  | attestCall
  | completeCall
  deriving DecidableEq

/-- Outcome of `tokenTransfer`: success returns the source transaction ids;
each error constructor records the phase the thrown value escaped from. -/
inductive XferOutcome where
  | ok (srcTxids : List String)
  | feeError
  | initiateError (e : String)
  | attestError (e : String)
  | completionError (e : String)
  deriving DecidableEq

/-- Model of `tokenTransfer` (src/unnamed/part_001, lines 397–451): the
quote-sanity check
`if (xfer.transfer.automatic && quote.destinationToken.amount < 0) throw …`,
then `initiateTransfer`, then `fetchAttestation(60_000)`, then
`completeTransfer` wrapped in a catch that remaps an error whose string
contains "transfer already completed" to success and rethrows anything else;
on success the function returns `srcTxids`.  The second component records
which bridge calls were submitted, in order. -/
def tokenTransfer (env : BridgeEnv) : XferOutcome × List BridgeStep :=
  if env.automatic = true ∧ env.quoteDestAmount < 0 then (XferOutcome.feeError, [])
  else
    match env.initiateResult with
    | Except.error e => (XferOutcome.initiateError e, [BridgeStep.initiateCall])
    | Except.ok srcTxids =>
      match env.attestResult with
      | Except.error e =>
        (XferOutcome.attestError e, [BridgeStep.initiateCall, BridgeStep.attestCall])
      | Except.ok _ =>
        match env.completeResult with
        | Except.ok _ =>
          (XferOutcome.ok srcTxids,
            [BridgeStep.initiateCall, BridgeStep.attestCall, BridgeStep.completeCall])
        | Except.error e =>
          if jsIncludes e "transfer already completed" = true then
            (XferOutcome.ok srcTxids,
              [BridgeStep.initiateCall, BridgeStep.attestCall, BridgeStep.completeCall])
          else
            (XferOutcome.completionError e,
              [BridgeStep.initiateCall, BridgeStep.attestCall, BridgeStep.completeCall])

/-- The result object `executeCrossChainTransfer` returns to its caller. -/
structure XferResult where
  sourceAddress : String
  destinationAddress : String
  amount : String
  wormholeHash : String
  deriving DecidableEq

/-- The bridge-side outcomes `executeCrossChainTransfer` runs against; the
`automatic` flag is not part of it because the source hard-codes
`const automatic = false`. -/
structure BridgeWorld where
  quoteDestAmount : ℤ
  initiateResult : Except String (List String)
  attestResult : Except String (List String)
  completeResult : Except String (List String)

/-- The `BridgeEnv` that `executeCrossChainTransfer` actually passes to
`tokenTransfer` (`automatic = false`). -/
def manualEnv (w : BridgeWorld) : BridgeEnv :=
  ⟨false, w.quoteDestAmount, w.initiateResult, w.attestResult, w.completeResult⟩

/-- Model of `executeCrossChainTransfer` (src/unnamed/part_001, lines 65–110):
`srcTxids` is initialised to `['']`; the `tokenTransfer` call is wrapped in
`try { … } catch(e) { console.log(e); }`, so on any failure the initial `['']`
survives; the function then returns the result object with the sender and
receiver addresses, the requested amount string, and
`wormholeHash: srcTxids[0]` — the empty string on the failure path.
(`srcTxids[0]` is modelled as `headD ""`; a successful `initiateTransfer`
returns at least one transaction id.) -/
def executeCrossChainTransfer (srcAddr dstAddr amt : String) (w : BridgeWorld) :
    XferResult :=
  let initTxids : List String := [""]
  let srcTxids :=
    match (tokenTransfer (manualEnv w)).1 with
    | XferOutcome.ok txids => txids
    | _ => initTxids
  ⟨srcAddr, dstAddr, amt, srcTxids.headD ""⟩

/-- On `tokenTransfer` success, `XferOutcome.isOk` is `true`. -/
def XferOutcome.isOk : XferOutcome → Bool
  | XferOutcome.ok _ => true
  | _ => false

theorem executeCrossChainTransfer_of_not_ok (srcAddr dstAddr amt : String)
    (w : BridgeWorld) (h : (tokenTransfer (manualEnv w)).1.isOk = false) :
    executeCrossChainTransfer srcAddr dstAddr amt w = ⟨srcAddr, dstAddr, amt, ""⟩ := by
  unfold executeCrossChainTransfer
  cases hx : (tokenTransfer (manualEnv w)).1 with
  | ok t => rw [hx] at h; simp [XferOutcome.isOk] at h
  | feeError => simp [hx]
  | initiateError e => simp [hx]
  | attestError e => simp [hx]
  | completionError e => simp [hx]

/-- Claim C10: for every exception raised during the bridge transfer phase
(initiate, attestation wait, or a completion failure that is not "already
completed"), `executeCrossChainTransfer` still returns normally with a result
whose source and destination addresses are the signers' addresses, whose
amount equals the requested amount string, and whose wormholeHash is the
empty string — a success-shaped result distinguishable from a real success
only by the empty transaction hash. -/
theorem executeCrossChainTransfer_swallows_failures (srcAddr dstAddr amt : String)
    (w : BridgeWorld) (h : (tokenTransfer (manualEnv w)).1.isOk = false) :
    executeCrossChainTransfer srcAddr dstAddr amt w = ⟨srcAddr, dstAddr, amt, ""⟩ :=
  executeCrossChainTransfer_of_not_ok srcAddr dstAddr amt w h

/-- Witness for claim C10: a completion failure with no "already completed"
indicator still yields the success-shaped result with an empty hash. -/
theorem executeCrossChainTransfer_swallows_failures_witness :
    (tokenTransfer (manualEnv
      (⟨0, Except.ok ["t1"], Except.ok ["a1"],
        Except.error "insufficient funds for gas"⟩ : BridgeWorld))).1.isOk = false ∧
    executeCrossChainTransfer "SolSender" "EthReceiver" "0.02"
      (⟨0, Except.ok ["t1"], Except.ok ["a1"],
        Except.error "insufficient funds for gas"⟩ : BridgeWorld) =
      ⟨"SolSender", "EthReceiver", "0.02", ""⟩ :=
  ⟨rfl, executeCrossChainTransfer_swallows_failures "SolSender" "EthReceiver" "0.02" _ rfl⟩

/-- Claim C1 counterexample: an attestation failure (the fixed 60 s wait timing
out) is a transfer-pipeline failure that is not an "already completed"
completion error, yet `executeCrossChainTransfer` swallows it: the caller
receives the success-shaped result (addresses and amount exactly as on
success, wormholeHash the empty string) and no structured error surfaces. -/
theorem attest_failure_swallowed_counterexample :
    (tokenTransfer (manualEnv
      (⟨0, Except.ok ["srcTx"], Except.error "Timed out waiting for attestation",
        Except.ok []⟩ : BridgeWorld))).1 =
      XferOutcome.attestError "Timed out waiting for attestation" ∧
    executeCrossChainTransfer "SolSender" "EthReceiver" "0.01"
      (⟨0, Except.ok ["srcTx"], Except.error "Timed out waiting for attestation",
        Except.ok []⟩ : BridgeWorld) =
      ⟨"SolSender", "EthReceiver", "0.01", ""⟩ :=
  ⟨rfl, rfl⟩

/-- Claim C1 (amended): every transfer-pipeline failure other than an "already
completed" completion error is terminal for `tokenTransfer` and propagates
out of it (initiate failures are not retried at this layer), but
`executeCrossChainTransfer` catches every such failure, merely logs it, and
returns a success-shaped result whose wormholeHash is the empty string — the
failure is NOT surfaced to its caller as a structured error. -/
theorem transfer_failures_terminal_but_swallowed (srcAddr dstAddr amt : String)
    (w : BridgeWorld) :
    (∀ e, w.initiateResult = Except.error e →
      (tokenTransfer (manualEnv w)).1 = XferOutcome.initiateError e) ∧
    (∀ e t, w.initiateResult = Except.ok t → w.attestResult = Except.error e →
      (tokenTransfer (manualEnv w)).1 = XferOutcome.attestError e) ∧
    (∀ e t a, w.initiateResult = Except.ok t → w.attestResult = Except.ok a →
      w.completeResult = Except.error e →
      jsIncludes e "transfer already completed" = false →
      (tokenTransfer (manualEnv w)).1 = XferOutcome.completionError e) ∧
    ((tokenTransfer (manualEnv w)).1.isOk = false →
      executeCrossChainTransfer srcAddr dstAddr amt w = ⟨srcAddr, dstAddr, amt, ""⟩) := by
  refine ⟨?_, ?_, ?_, executeCrossChainTransfer_of_not_ok srcAddr dstAddr amt w⟩
  · intro e he
    simp [tokenTransfer, manualEnv, he]
  · intro e t hi he
    simp [tokenTransfer, manualEnv, hi, he]
  · intro e t a hi ha hc hj
    simp [tokenTransfer, manualEnv, hi, ha, hc, hj]

/-- Witness for claim C1 (amended) at an initiate failure. -/
theorem transfer_failures_terminal_but_swallowed_witness :
    (tokenTransfer (manualEnv
      (⟨0, Except.error "rpc down", Except.ok [], Except.ok []⟩ : BridgeWorld))).1 =
      XferOutcome.initiateError "rpc down" ∧
    executeCrossChainTransfer "s" "d" "0.5"
      (⟨0, Except.error "rpc down", Except.ok [], Except.ok []⟩ : BridgeWorld) =
      ⟨"s", "d", "0.5", ""⟩ :=
  ⟨(transfer_failures_terminal_but_swallowed "s" "d" "0.5" _).1 "rpc down" rfl,
   (transfer_failures_terminal_but_swallowed "s" "d" "0.5" _).2.2.2 rfl⟩

/-- Claim C3 counterexample: with automatic completion requested and a quoted
destination amount of exactly 0 (a non-positive net amount), the source's
strict `< 0` check does not fire: no fee error is raised and the completion
call is submitted. -/
theorem quote_check_zero_counterexample :
    (tokenTransfer (⟨true, 0, Except.ok ["srcTx"], Except.ok ["att"],
      Except.ok ["done"]⟩ : BridgeEnv)).1 = XferOutcome.ok ["srcTx"] ∧
    BridgeStep.completeCall ∈ (tokenTransfer (⟨true, 0, Except.ok ["srcTx"],
      Except.ok ["att"], Except.ok ["done"]⟩ : BridgeEnv)).2 := by
  exact ⟨rfl, by decide⟩

/-- Claim C3 (amended): the quote-sanity check fires exactly on a strictly
negative quoted destination amount: when automatic completion is requested
and the quote is `< 0` (not `≤ 0`), the transfer fails fast with the fee
error before any bridge call is submitted; when automaticCompletion = false
the check never fires. -/
theorem quote_check_fires_iff_negative (env : BridgeEnv) :
    (env.automatic = true → env.quoteDestAmount < 0 →
      tokenTransfer env = (XferOutcome.feeError, [])) ∧
    (env.automatic = false → (tokenTransfer env).1 ≠ XferOutcome.feeError) := by
  constructor
  · intro ha hq
    simp [tokenTransfer, ha, hq]
  · intro ha
    simp only [tokenTransfer, ha]
    cases hi : env.initiateResult with
    | error e => simp
    | ok t =>
      cases hatt : env.attestResult with
      | error e => simp
      | ok a =>
        cases hc : env.completeResult with
        | ok d => simp
        | error e =>
          by_cases hj : jsIncludes e "transfer already completed" = true <;> simp [hj]

/-- Witness for claim C3 (amended): the check fires at quote −1 with automatic
completion; with manual completion it does not fire even at quote −1. -/
theorem quote_check_fires_iff_negative_witness :
    tokenTransfer (⟨true, -1, Except.ok ["s"], Except.ok ["a"],
      Except.ok ["c"]⟩ : BridgeEnv) = (XferOutcome.feeError, []) ∧
    (tokenTransfer (⟨false, -1, Except.ok ["s"], Except.ok ["a"],
      Except.ok ["c"]⟩ : BridgeEnv)).1 ≠ XferOutcome.feeError :=
  ⟨(quote_check_fires_iff_negative _).1 rfl (by norm_num),
   (quote_check_fires_iff_negative _).2 rfl⟩

/-- Claim C5: a completion failure whose message contains
"transfer already completed" is logged and NOT re-raised — `tokenTransfer`
returns the source transaction ids as on success, and
`executeCrossChainTransfer` returns the originally computed source address,
destination address and requested amount (with the primary source txid as
hash); a completion failure without that indicator is re-raised as a
completion error. -/
theorem completion_already_completed_is_success (w : BridgeWorld)
    (srcAddr dstAddr amt : String) (t a : List String) (e : String)
    (hi : w.initiateResult = Except.ok t) (ha : w.attestResult = Except.ok a)
    (hc : w.completeResult = Except.error e) :
    (jsIncludes e "transfer already completed" = true →
      (tokenTransfer (manualEnv w)).1 = XferOutcome.ok t ∧
      executeCrossChainTransfer srcAddr dstAddr amt w =
        ⟨srcAddr, dstAddr, amt, t.headD ""⟩) ∧
    (jsIncludes e "transfer already completed" = false →
      (tokenTransfer (manualEnv w)).1 = XferOutcome.completionError e) := by
  constructor
  · intro hj
    have hok : (tokenTransfer (manualEnv w)).1 = XferOutcome.ok t := by
      simp [tokenTransfer, manualEnv, hi, ha, hc, hj]
    refine ⟨hok, ?_⟩
    unfold executeCrossChainTransfer
    rw [hok]
  · intro hj
    simp [tokenTransfer, manualEnv, hi, ha, hc, hj]

/-- Witness for claim C5: a thrown "transfer already completed" error string
yields overall success with the original addresses, amount and source txid. -/
theorem completion_already_completed_is_success_witness :
    (tokenTransfer (manualEnv (⟨0, Except.ok ["srcTx"], Except.ok ["att"],
      Except.error "Error: transfer already completed"⟩ : BridgeWorld))).1 =
      XferOutcome.ok ["srcTx"] ∧
    executeCrossChainTransfer "SolSender" "EthReceiver" "0.01"
      (⟨0, Except.ok ["srcTx"], Except.ok ["att"],
        Except.error "Error: transfer already completed"⟩ : BridgeWorld) =
      ⟨"SolSender", "EthReceiver", "0.01", "srcTx"⟩ :=
  (completion_already_completed_is_success _ "SolSender" "EthReceiver" "0.01"
    ["srcTx"] ["att"] "Error: transfer already completed" rfl rfl rfl).1 (by decide)

/-- Reads a maximal run of decimal digits, accumulating their value:
returns the accumulated value, the number of digits read, and the rest. -/
def takeDigits : List Char → Nat → Nat → Nat × Nat × List Char
  | [], acc, cnt => (acc, cnt, [])
  | c :: cs, acc, cnt =>
    if c.isDigit then takeDigits cs (acc * 10 + (c.toNat - 48)) (cnt + 1)
    else (acc, cnt, c :: cs)

/-- Drops leading whitespace, as JS `parseFloat` does. -/
def skipWhitespace : List Char → List Char
  | [] => []
  | c :: cs => if c.isWhitespace then skipWhitespace cs else c :: cs

/-- Reads an optional leading sign, returning `-1` for `'-'`, else `1`. -/
def takeSign : List Char → ℤ × List Char
  | [] => (1, [])
  | c :: cs =>
    if c = '+' then (1, cs) else if c = '-' then (-1, cs) else (1, c :: cs)

/-- Model of JavaScript `parseFloat` on a string, with `none` standing for
`NaN`: skips leading whitespace, reads an optional sign, then the longest
prefix of the shape `digits`, `digits.digits` or `.digits`, optionally
followed by a well-formed exponent `e`/`E` `[sign] digits` (an exponent
without digits is ignored, as JS takes the longest valid literal prefix);
all remaining characters are ignored.  The special literals
`Infinity`/`-Infinity` are omitted — no claim depends on them.  The value is
returned as the exact rational value of the parsed literal (built with
`mkRat` from its integer, fraction and exponent parts); the claims decided
with this model compare only against 0, where IEEE rounding of the parsed
value cannot change the sign. -/
def jsParseFloat (s : String) : Option ℚ :=
  let cs := skipWhitespace s.toList
  let (sgn, cs1) := takeSign cs
  let (ip, icnt, cs2) := takeDigits cs1 0 0
  let (fp, fcnt, cs3) :=
    match cs2 with
    | '.' :: rest => takeDigits rest 0 0
    | _ => (0, 0, cs2)
  if icnt = 0 ∧ fcnt = 0 then none
  else
    let num : ℤ := sgn * ((ip : ℤ) * 10 ^ fcnt + (fp : ℤ))
    let den : ℕ := 10 ^ fcnt
    match cs3 with
    | c :: rest =>
      if c = 'e' ∨ c = 'E' then
        let (esgn, rest2) := takeSign rest
        let (ev, ecnt, _) := takeDigits rest2 0 0
        if ecnt = 0 then some (mkRat num den)
        else if esgn = 1 then some (mkRat (num * 10 ^ ev) den)
        else some (mkRat num (den * 10 ^ ev))
      else some (mkRat num den)
    | [] => some (mkRat num den)

/-- Model of the amount guard of the `POST /api/cross-chain-stake` handler
(src/src/server.ts, lines 77–91):
`if (!amount || parseFloat(amount) <= 0) return 400 "Please provide a valid amount"`.
For a string-valued `amount`, `!amount` is true exactly for the empty string,
and a JS comparison against `NaN` is false, so a `NaN` parse does NOT
reject.  `true` means the request is rejected before any transfer starts. -/
def crossChainStakeRejects (amt : String) : Bool :=
  amt == "" ||
    match jsParseFloat amt with
    | none => false
    | some q => decide (q ≤ 0)

/-- Claim C4 (code bug): the guard is evidently meant to validate a positive
decimal amount — it rejects "", "0" and admits "0.01", and its own rejection
message reads "Please provide a valid amount" — yet the non-numeric string
"abc" is NOT rejected: `parseFloat("abc")` is `NaN` and `NaN <= 0` is false
in JS, so the cross-chain transfer is started with an invalid amount. -/
theorem crossChainStake_accepts_non_numeric :
    crossChainStakeRejects "abc" = false ∧ jsParseFloat "abc" = none ∧
    crossChainStakeRejects "" = true ∧
    crossChainStakeRejects "0" = true ∧
    crossChainStakeRejects "-5" = true ∧
    crossChainStakeRejects "0.01" = false := by
  refine ⟨?_, ?_, ?_, ?_, ?_, ?_⟩ <;> decide

/-- Destination-chain contract interactions submitted by the staking and
unstaking sequencers, in submission order.  `…Confirm` events model the
corresponding `await tx.wait()`. -/
inductive CCall where
  | mintersQuery
  | addMinterSubmit
  | addMinterConfirm
  | wrappedBalanceQuery
  | decimalsQuery
  | loanBalanceQuery
  | approveSubmit (amt : ℕ)
  | approveConfirm
  | stakeSubmit (amt : ℕ)
  | stakeConfirm
  | unstakeSubmit (amt : ℕ)
  | unstakeConfirm
  | positionQuery
  deriving DecidableEq

/-- Values the remote reads of `executeStaking` eventually yield (each read is
wrapped in `executeWithRetry` in the source; the environment supplies the
value it settles on). -/
structure StakingEnv where
  isMinter : Bool
  balance : ℕ
  decimals : ℕ
  stakedAmount : ℕ
  loanedAmount : ℕ

/-- Model of `executeStaking` (src/unnamed/part_001, lines 133–233): checks
`minters(stakingContract)` and, if false, submits `addMinter` and awaits its
confirmation; reads the wrapped-asset balance and decimals; with a positive
balance it submits `approve(stakingContract, balance)`, awaits confirmation,
submits `stake(balance)`, awaits confirmation, re-reads the position and
returns it; with a zero balance it returns `null`.  The second component is
the ordered list of contract interactions. -/
def executeStaking (env : StakingEnv) : Option (ℕ × ℕ) × List CCall :=
  let minterCalls :=
    if env.isMinter then [CCall.mintersQuery]
    else [CCall.mintersQuery, CCall.addMinterSubmit, CCall.addMinterConfirm]
  let readCalls := [CCall.wrappedBalanceQuery, CCall.decimalsQuery]
  if 0 < env.balance then
    (some (env.stakedAmount, env.loanedAmount),
      minterCalls ++ readCalls ++
        [CCall.approveSubmit env.balance, CCall.approveConfirm,
         CCall.stakeSubmit env.balance, CCall.stakeConfirm, CCall.positionQuery])
  else (none, minterCalls ++ readCalls)

/-- Values the remote reads of `executeUnstake` eventually yield. -/
structure UnstakeEnv where
  stakedAmount : ℕ
  loanedAmount : ℕ
  decimals : ℕ
  loanBalance : ℕ
  newBalance : ℕ
  newStakedAmount : ℕ
  newLoanedAmount : ℕ

/-- Outcome of `executeUnstake`: `nothingToUnstake` models the `return null`,
`insufficientLoanBalance need got` the thrown
"Insufficient loan token balance…" error (the outer catch only logs and
rethrows it), `ok` the returned `{withdrawnAmount, newStakedAmount,
newLoanedAmount}` object (in base units). -/
inductive UnstakeOutcome where
  | nothingToUnstake
  | insufficientLoanBalance (need got : ℕ)
  | ok (withdrawnAmount newStakedAmount newLoanedAmount : ℕ)
  deriving DecidableEq

/-- Model of `executeUnstake` (src/unnamed/part_001, lines 292–394): reads the
position (`getUserStake`) and the token decimals; returns `null` when
`stakedAmount <= 0n`; reads the caller's loan-token balance and throws the
insufficient-balance error as soon as it is below `loanedAmount` (this throw
is not inside any `executeWithRetry` wrapper, so it is not retried);
otherwise submits `approve(stakingContract, loanedAmount)`, awaits
confirmation, submits `unstake(stakedAmount)`, awaits confirmation, and
re-reads the wrapped balance and the position.  The second component is the
ordered list of contract interactions. -/
def executeUnstake (env : UnstakeEnv) : UnstakeOutcome × List CCall :=
  if env.stakedAmount ≤ 0 then
    (UnstakeOutcome.nothingToUnstake, [CCall.positionQuery, CCall.decimalsQuery])
  else if env.loanBalance < env.loanedAmount then
    (UnstakeOutcome.insufficientLoanBalance env.loanedAmount env.loanBalance,
      [CCall.positionQuery, CCall.decimalsQuery, CCall.loanBalanceQuery])
  else
    (UnstakeOutcome.ok env.stakedAmount env.newStakedAmount env.newLoanedAmount,
      [CCall.positionQuery, CCall.decimalsQuery, CCall.loanBalanceQuery,
       CCall.approveSubmit env.loanedAmount, CCall.approveConfirm,
       CCall.unstakeSubmit env.stakedAmount, CCall.unstakeConfirm,
       CCall.wrappedBalanceQuery, CCall.positionQuery])

/-- Claim C7: whenever the caller's loan-token balance read is below the
recorded loanedAmount, `executeUnstake` fails immediately with the
insufficient-loan-balance error — its call trace stops at the balance read,
so zero approve and zero unstake calls are performed before the failure
surfaces, and nothing re-runs after the throw (it is not retried). -/
theorem unstake_insufficient_balance_immediate (env : UnstakeEnv)
    (hs : 0 < env.stakedAmount) (hb : env.loanBalance < env.loanedAmount) :
    executeUnstake env =
      (UnstakeOutcome.insufficientLoanBalance env.loanedAmount env.loanBalance,
        [CCall.positionQuery, CCall.decimalsQuery, CCall.loanBalanceQuery]) ∧
    (∀ a, CCall.approveSubmit a ∉ (executeUnstake env).2) ∧
    (∀ a, CCall.unstakeSubmit a ∉ (executeUnstake env).2) := by
  have hne : ¬ env.stakedAmount ≤ 0 := by omega
  refine ⟨by simp [executeUnstake, hne, hb], ?_, ?_⟩ <;>
    intro a <;> simp [executeUnstake, hne, hb]

/-- Witness for claim C7: staked 5, loaned 50, loan-token balance 49. -/
theorem unstake_insufficient_balance_immediate_witness :
    executeUnstake (⟨5, 50, 9, 49, 0, 0, 0⟩ : UnstakeEnv) =
      (UnstakeOutcome.insufficientLoanBalance 50 49,
        [CCall.positionQuery, CCall.decimalsQuery, CCall.loanBalanceQuery]) ∧
    (∀ a, CCall.approveSubmit a ∉ (executeUnstake (⟨5, 50, 9, 49, 0, 0, 0⟩ : UnstakeEnv)).2) ∧
    (∀ a, CCall.unstakeSubmit a ∉ (executeUnstake (⟨5, 50, 9, 49, 0, 0, 0⟩ : UnstakeEnv)).2) :=
  unstake_insufficient_balance_immediate _ (by decide) (by decide)

/-- Temporal checker for a call trace, scanned left to right with flags
`sub` (an approve has been submitted) and `conf` (an approve has been
confirmed): accepts iff every approve confirmation is preceded by an approve
submission and every stake or unstake submission is strictly preceded by an
approve confirmation. -/
def approvalPrecedes : List CCall → Bool → Bool → Bool
  | [], _, _ => true
  | c :: cs, sub, conf =>
    match c with
    | CCall.approveSubmit _ => approvalPrecedes cs true conf
    | CCall.approveConfirm => sub && approvalPrecedes cs sub true
    | CCall.stakeSubmit _ => conf && approvalPrecedes cs sub conf
    | CCall.unstakeSubmit _ => conf && approvalPrecedes cs sub conf
    | _ => approvalPrecedes cs sub conf

/-- Claim C8: in both the staking and the unstaking operation the steps are
strictly sequential: the approve transaction is submitted and confirmed
before the dependent stake (resp. unstake) call is submitted — the temporal
checker accepts every trace either operation can produce, and the dependent
call does occur (with the full read amount) whenever the operation reaches
it. -/
theorem approve_confirmed_before_stake_unstake (envS : StakingEnv) (envU : UnstakeEnv) :
    approvalPrecedes (executeStaking envS).2 false false = true ∧
    approvalPrecedes (executeUnstake envU).2 false false = true ∧
    (0 < envS.balance → CCall.stakeSubmit envS.balance ∈ (executeStaking envS).2) ∧
    (0 < envU.stakedAmount → envU.loanedAmount ≤ envU.loanBalance →
      CCall.unstakeSubmit envU.stakedAmount ∈ (executeUnstake envU).2) := by
  refine ⟨?_, ?_, ?_, ?_⟩
  · by_cases hm : envS.isMinter <;> by_cases hb : 0 < envS.balance <;>
      simp [executeStaking, hm, hb, approvalPrecedes]
  · by_cases h0 : envU.stakedAmount ≤ 0 <;> by_cases hb : envU.loanBalance < envU.loanedAmount <;>
      simp [executeUnstake, h0, hb, approvalPrecedes]
  · intro hb
    by_cases hm : envS.isMinter <;> simp [executeStaking, hm, hb]
  · intro h0 hb
    have h1 : ¬ envU.stakedAmount ≤ 0 := by omega
    have h2 : ¬ envU.loanBalance < envU.loanedAmount := by omega
    simp [executeUnstake, h1, h2]

/-- Witness for claim C8: concrete environments in which both dependent calls
are actually submitted. -/
theorem approve_confirmed_before_stake_unstake_witness :
    approvalPrecedes (executeStaking (⟨false, 7, 9, 7, 70⟩ : StakingEnv)).2 false false = true ∧
    approvalPrecedes (executeUnstake (⟨5, 50, 9, 50, 0, 0, 0⟩ : UnstakeEnv)).2 false false = true ∧
    CCall.stakeSubmit 7 ∈ (executeStaking (⟨false, 7, 9, 7, 70⟩ : StakingEnv)).2 ∧
    CCall.unstakeSubmit 5 ∈ (executeUnstake (⟨5, 50, 9, 50, 0, 0, 0⟩ : UnstakeEnv)).2 :=
  ⟨(approve_confirmed_before_stake_unstake (⟨false, 7, 9, 7, 70⟩ : StakingEnv)
      (⟨5, 50, 9, 50, 0, 0, 0⟩ : UnstakeEnv)).1,
   (approve_confirmed_before_stake_unstake (⟨false, 7, 9, 7, 70⟩ : StakingEnv)
      (⟨5, 50, 9, 50, 0, 0, 0⟩ : UnstakeEnv)).2.1,
   (approve_confirmed_before_stake_unstake (⟨false, 7, 9, 7, 70⟩ : StakingEnv)
      (⟨5, 50, 9, 50, 0, 0, 0⟩ : UnstakeEnv)).2.2.1 (by decide),
   (approve_confirmed_before_stake_unstake (⟨false, 7, 9, 7, 70⟩ : StakingEnv)
      (⟨5, 50, 9, 50, 0, 0, 0⟩ : UnstakeEnv)).2.2.2 (by decide) (by decide)⟩

/-- Per-user stake position of the `CrossChainStaking` contract
(`stakes[user]`), in token base units. -/
structure Position where
  stakedAmount : ℕ
  loanedAmount : ℕ
  deriving DecidableEq

/-- uint256 overflow bound; Solidity `^0.8` checked arithmetic reverts at it. -/
def U256 : ℕ := 2 ^ 256

/-- Model of `CrossChainStaking.stake` / `stakeForUser` restricted to the
caller's position (src/unnamed/part_002, lines 72–92 and 127–148): requires a
positive amount, computes `loanAmount = amount * loanRatio`, and adds
`(amount, loanAmount)` to the position.  `none` models a revert, including a
checked-arithmetic overflow.  The token transfer in and the minting of the
loan tokens are calls on external collaborators and do not change the
position. -/
def stakeStep (loanRatio : ℕ) (p : Position) (amt : ℕ) : Option Position :=
  if amt = 0 then none
  else if U256 ≤ amt * loanRatio then none
  else if U256 ≤ p.stakedAmount + amt then none
  else if U256 ≤ p.loanedAmount + amt * loanRatio then none
  else some ⟨p.stakedAmount + amt, p.loanedAmount + amt * loanRatio⟩

/-- Model of `CrossChainStaking.unstake` restricted to the caller's position
(src/unnamed/part_002, lines 98–120): requires a positive amount not
exceeding the staked amount, computes
`burnAmount = (amount * loanedAmount) / stakedAmount` in checked uint256
arithmetic (integer division truncates), requires `burnAmount > 0`
("Burn amount too small"), and subtracts `(amount, burnAmount)` from the
position.  The burn and the transfer back are external calls. -/
def unstakeStep (p : Position) (amt : ℕ) : Option Position :=
  if amt = 0 then none
  else if p.stakedAmount < amt then none
  else if U256 ≤ amt * p.loanedAmount then none
  else if amt * p.loanedAmount / p.stakedAmount = 0 then none
  else some ⟨p.stakedAmount - amt,
    p.loanedAmount - amt * p.loanedAmount / p.stakedAmount⟩

/-- Positions one user of the contract can hold: starting from the empty
position, closed under `stake`/`stakeForUser` — with whatever loan ratio is
current at call time; the constructor and `updateLoanRatio` both require a
positive (hence ≥ 1) ratio — and under `unstake`. -/
inductive Reachable : Position → Prop
  | init : Reachable ⟨0, 0⟩
  | stake (loanRatio : ℕ) (p q : Position) (amt : ℕ) (hr : 0 < loanRatio)
      (hp : Reachable p) (hq : stakeStep loanRatio p amt = some q) : Reachable q
  | unstake (p q : Position) (amt : ℕ)
      (hp : Reachable p) (hq : unstakeStep p amt = some q) : Reachable q

/-- Invariant of the contract: with every loan ratio ≥ 1, a user's loaned
amount never drops below the staked amount. -/
theorem Reachable.staked_le_loaned {p : Position} (h : Reachable p) :
    p.stakedAmount ≤ p.loanedAmount := by
  induction h with
  | init => simp
  | stake loanRatio p q amt hr hp hq ih =>
    rw [stakeStep] at hq
    split_ifs at hq
    rw [Option.some_inj] at hq
    subst hq
    have h2 : amt ≤ amt * loanRatio := Nat.le_mul_of_pos_right amt hr
    simpa using Nat.add_le_add ih h2
  | unstake p q amt hp hq ih =>
    rw [unstakeStep] at hq
    split_ifs at hq with h1 h2 h3 h4
    rw [Option.some_inj] at hq
    subst hq
    have ha : 0 < amt := Nat.pos_of_ne_zero h1
    have hle : amt ≤ p.stakedAmount := Nat.le_of_not_lt h2
    have hS : 0 < p.stakedAmount := lt_of_lt_of_le ha hle
    obtain ⟨m, hm⟩ : ∃ m, p.loanedAmount = p.stakedAmount + m :=
      ⟨p.loanedAmount - p.stakedAmount, by omega⟩
    have hdm : amt * p.loanedAmount / p.stakedAmount * p.stakedAmount ≤
        amt * p.loanedAmount := Nat.div_mul_le_self _ _
    have hub : amt * p.loanedAmount ≤ (amt + m) * p.stakedAmount := by
      rw [hm]
      have h5 : amt * m ≤ p.stakedAmount * m := Nat.mul_le_mul_right m hle
      nlinarith
    have hkey : amt * p.loanedAmount / p.stakedAmount ≤ amt + m :=
      Nat.le_of_mul_le_mul_right (le_trans hdm hub) hS
    show p.stakedAmount - amt ≤ p.loanedAmount - amt * p.loanedAmount / p.stakedAmount
    have hbL : amt * p.loanedAmount / p.stakedAmount ≤ p.loanedAmount := by
      have h6 : amt * p.loanedAmount ≤ p.stakedAmount * p.loanedAmount :=
        Nat.mul_le_mul_right p.loanedAmount hle
      calc amt * p.loanedAmount / p.stakedAmount
          ≤ p.stakedAmount * p.loanedAmount / p.stakedAmount :=
            Nat.div_le_div_right h6
        _ = p.loanedAmount := Nat.mul_div_cancel_left _ hS
    omega

/-- On any position of the contract, the burn amount of a positive unstake not
exceeding the staked amount is positive (so the "Burn amount too small"
revert cannot fire). -/
theorem Reachable.burn_pos {p : Position} (h : Reachable p) (amt : ℕ)
    (ha : 0 < amt) (hle : amt ≤ p.stakedAmount) :
    0 < amt * p.loanedAmount / p.stakedAmount := by
  have hS : 0 < p.stakedAmount := lt_of_lt_of_le ha hle
  have hSL : p.stakedAmount ≤ p.loanedAmount := h.staked_le_loaned
  have h1 : p.stakedAmount ≤ amt * p.loanedAmount := by nlinarith
  exact Nat.div_pos h1 hS

/-- Claim C9: the staking contract computes the minted loan amount on stake
as `loanAmount = amount × loanRatio` (added exactly to the position), and on
a partial unstake of `amount` from a position `(stakedAmount, loanedAmount)`
of the contract with `stakedAmount ≥ amount > 0` (and, the arithmetic being
checked uint256, no overflow in `amount * loanedAmount`), burns exactly
`burnAmount = ⌊amount × loanedAmount / stakedAmount⌋` in exact integer
arithmetic, leaving `(stakedAmount − amount, loanedAmount − burnAmount)`. -/
theorem stake_and_unstake_exact_arithmetic :
    (∀ (loanRatio : ℕ) (p q : Position) (amt : ℕ),
      stakeStep loanRatio p amt = some q →
      q = ⟨p.stakedAmount + amt, p.loanedAmount + amt * loanRatio⟩) ∧
    (∀ (p : Position) (amt : ℕ), Reachable p → 0 < amt → amt ≤ p.stakedAmount →
      amt * p.loanedAmount < U256 →
      unstakeStep p amt =
        some ⟨p.stakedAmount - amt,
          p.loanedAmount - amt * p.loanedAmount / p.stakedAmount⟩) := by
  constructor
  · intro loanRatio p q amt hq
    rw [stakeStep] at hq
    split_ifs at hq
    exact (Option.some_inj.mp hq).symm
  · intro p amt hp ha hle hov
    have hb : 0 < amt * p.loanedAmount / p.stakedAmount := hp.burn_pos amt ha hle
    rw [unstakeStep, if_neg (Nat.pos_iff_ne_zero.mp ha), if_neg (not_lt.mpr hle),
      if_neg (not_le.mpr hov), if_neg (Nat.pos_iff_ne_zero.mp hb)]

/-- Witness for claim C9, the spec's own example in abstract units: with loan
ratio 10, staking 2 from the empty position yields the position (2, 20);
unstaking 1 burns `⌊1 × 20 / 2⌋ = 10` and leaves (1, 10). -/
theorem stake_and_unstake_exact_arithmetic_witness :
    stakeStep 10 ⟨0, 0⟩ 2 = some ⟨2, 20⟩ ∧
    unstakeStep ⟨2, 20⟩ 1 = some ⟨1, 10⟩ := by
  constructor
  · decide
  · have h := stake_and_unstake_exact_arithmetic.2 ⟨2, 20⟩ 1
      (Reachable.stake 10 ⟨0, 0⟩ ⟨2, 20⟩ 2 (by decide) Reachable.init (by decide))
      (by decide) (by decide) (by decide)
    exact h

end CCW
